import Mathlib

/-!
Shallow embedding of the `uofuchpc.cmdb` dynamic-inventory plugin
(`plugins/inventory/portal.py`) and proofs about its fetch / validate /
transform / register pipeline.

The embedding follows the Python source:

* `load_inventory_data` models `InventoryModule._load_inventory_data`:
  a single HTTP GET whose outcome is passed in explicitly (status plus
  parsed-JSON body, or a transport exception).  Note that in the source the
  non-200 `AnsibleError` is raised *inside* the `try` block, so it is caught
  by the generic `except Exception` handler and re-wrapped; the final
  message is the concatenation modelled here.
* `validate` models the jsonschema check.  The schema artifact
  `plugin_utils/portal-cmdb-schema.json` is not part of the sources, so the
  validator is modelled from the spec (see its doc comment).
* `sanitize_group_name` models `InventoryModule._sanitize_group_name`:
  `re.sub` over the class `[^A-Za-z0-9_-]`, then `str.lower`, then
  `str.replace('-', '_')`.  All three passes are character-local, so they
  are modelled as one map over the characters.
* `sortHosts` models `sorted(raw_data['hosts'], key=lambda item:
  item['primary_address'])`.  CPython's sort is a stable sort by the key
  under string (code-point lexicographic) comparison; a stable sort is
  extensionally unique, so the stable insertion sort below computes the
  same list.  Lean's `String` order is code-point lexicographic as well.
* `parseBody` models the body of `InventoryModule.parse` after
  validation: the group-collection loop, `list(set(...))` deduplication
  (whose order CPython leaves unspecified; `List.dedup` is one order, and
  no theorem below depends on which), the `add_group` loop, and the host
  loop.  Calls into `self.inventory` are reified as a `SinkCall` trace.
  `_sanitize_group_name(None)` raises `TypeError` in Python (`re.sub`
  requires a string), so sanitization of a group entry is fallible here
  and the trace carries an optional error: the calls emitted before the
  exception, and the exception itself.
-/

namespace Portal

/-- JSON values, as returned by `response.json()`.  Objects are association
lists; `json.loads` collapses duplicate keys (last wins) while building the
dict, so the lists are assumed key-unique and looked up by first match. -/
inductive Json where
  | null
  | bool (b : Bool)
  | str (s : String)
  | num (n : Int)
  | arr (elems : List Json)
  | obj (fields : List (String × Json))

/-- A host entry of a schema-valid payload: `primary_address` a string,
`enabled` a boolean, `group_list` an array whose items are strings or
null (`Option String`). -/
structure RawHostRecord where
  primary_address : String
  group_list : List (Option String)
  enabled : Bool
deriving DecidableEq

/-- Values stored by `inventory.set_variable` in this plugin: host name
strings and the `enabled` boolean. -/
inductive Value where
  | str (s : String)
  | bool (b : Bool)
deriving DecidableEq

/-- One call into the Ansible inventory object (`self.inventory`). -/
inductive SinkCall where
  | add_group (name : String)
  | add_host (hostname : String) (group : String)
  | set_variable (hostname : String) (key : String) (value : Value)
deriving DecidableEq

/-- The outcome of `requests.get` as seen by `_load_inventory_data`:
either a response with a status code and a body (whose JSON parse may
fail), or a transport-level exception with its message. -/
inductive HttpResult where
  | response (status : Nat) (body : Except String Json)
  | exn (message : String)

/-- `InventoryModule._load_inventory_data`: on status 200 return the parsed
JSON; on any other status raise `AnsibleError` naming the URL — which the
surrounding `except Exception` handler catches and re-wraps; on a transport
exception or a JSON parse failure, wrap the cause's message. -/
def load_inventory_data (cmdb_api_url : String) (resp : HttpResult) : Except String Json :=
  match resp with
  | .response status body =>
      if status = 200 then
        match body with
        | .ok data => .ok data
        | .error msg => .error ("An error occurred, the original exception is: " ++ msg)
      else
        .error ("An error occurred, the original exception is: " ++
          ("Failed to fetch JSON inventory data from CMDB: " ++ cmdb_api_url ++ "."))
  | .exn msg => .error ("An error occurred, the original exception is: " ++ msg)

/-- Is a character in the class `[A-Za-z0-9_-]` kept by the `re.sub` pass
of `_sanitize_group_name`? -/
def isAllowedChar (c : Char) : Bool :=
  (decide ('A' ≤ c) && decide (c ≤ 'Z')) || (decide ('a' ≤ c) && decide (c ≤ 'z')) ||
  (decide ('0' ≤ c) && decide (c ≤ '9')) || (c == '_') || (c == '-')

/-- The per-character effect of `_sanitize_group_name`: characters outside
`[A-Za-z0-9_-]` become `_` (the `re.sub`), then `str.lower`, then
`-` becomes `_` (the `str.replace`). -/
def sanitizeChar (c : Char) : Char :=
  let c1 := if isAllowedChar c then c else '_'
  let c2 := c1.toLower
  if c2 = '-' then '_' else c2

/-- `InventoryModule._sanitize_group_name` on a string argument.  The three
passes of the source (`re.sub`, `lower`, `replace`) are each
character-local, so their composition is one map over the characters. -/
def sanitize_group_name (name : String) : String :=
  String.mk (name.data.map sanitizeChar)

/-- The message of Python's `TypeError` when `re.sub` is applied to `None`,
which is what `_sanitize_group_name(None)` does. -/
def typeErrorMsg : String := "expected string or bytes-like object"

/-- Sanitizing one entry of a `group_list`: a string is sanitized, while
`None` makes `re.sub` raise `TypeError`. -/
def sanitizeOpt : Option String → Except String String
  | some s => .ok (sanitize_group_name s)
  | none => .error typeErrorMsg

/-- Characters a sanitized name may contain: `[a-z0-9_]`. -/
def isGoodChar (c : Char) : Bool :=
  (decide ('a' ≤ c) && decide (c ≤ 'z')) || (decide ('0' ≤ c) && decide (c ≤ '9')) || (c == '_')

/-- Ordered insertion by `primary_address`, placing the new element before
the first strictly greater key and after equal keys (stable). -/
def insertHost (x : RawHostRecord) : List RawHostRecord → List RawHostRecord
  | [] => [x]
  | y :: ys =>
      if x.primary_address ≤ y.primary_address then x :: y :: ys
      else y :: insertHost x ys

/-- `sorted(raw_data['hosts'], key=lambda item: item['primary_address'])`.
CPython's sort is stable under the key's total preorder; stable sorts are
extensionally unique, so this stable insertion sort computes the same
list. -/
def sortHosts : List RawHostRecord → List RawHostRecord
  | [] => []
  | x :: xs => insertHost x (sortHosts xs)

/-- The inner loop `for val in host['group_list']:
host_groups.append(self._sanitize_group_name(val))`, which aborts with
`TypeError` at the first `None` entry. -/
def gatherGroups : List (Option String) → Except String (List String)
  | [] => .ok []
  | v :: vs =>
      match sanitizeOpt v with
      | .error e => .error e
      | .ok s =>
          match gatherGroups vs with
          | .error e => .error e
          | .ok rest => .ok (s :: rest)

/-- The group-collection loop of `parse`: over the sorted hosts, skip a
host whose `group_list` equals `[None]` (the "temporary hack" check),
otherwise sanitize every entry. -/
def collectGroups : List RawHostRecord → Except String (List String)
  | [] => .ok []
  | h :: rest =>
      match (if h.group_list = [(none : Option String)] then .ok [] else gatherGroups h.group_list) with
      | .error e => .error e
      | .ok gs =>
          match collectGroups rest with
          | .error e => .error e
          | .ok others => .ok (gs ++ others)

/-- The inner loop `for val in host['group_list']:
self.inventory.add_host(hostname, group=self._sanitize_group_name(val))`:
the `add_host` calls actually made, plus the `TypeError` if a `None` entry
is hit (the calls before it have already been made). -/
def groupAddCalls (hostname : String) : List (Option String) → List SinkCall × Option String
  | [] => ([], none)
  | v :: vs =>
      match sanitizeOpt v with
      | .error e => ([], some e)
      | .ok s =>
          let rest := groupAddCalls hostname vs
          (SinkCall.add_host hostname s :: rest.1, rest.2)

/-- The host-registration loop of `parse`: for each host in sorted order,
`add_host(hostname, group='all')`, `set_variable(hostname, 'ansible_host',
hostname)`, one `add_host` per `group_list` entry unless the list is
exactly `[None]`, then `set_variable(hostname, 'enabled', ...)`.  Returns
the calls made and the first uncaught exception, if any. -/
def hostLoop : List RawHostRecord → List SinkCall × Option String
  | [] => ([], none)
  | h :: rest =>
      let hn := h.primary_address
      let pre : List SinkCall :=
        [SinkCall.add_host hn "all", SinkCall.set_variable hn "ansible_host" (Value.str hn)]
      let g := if h.group_list = [(none : Option String)] then (([], none) : List SinkCall × Option String)
               else groupAddCalls hn h.group_list
      match g.2 with
      | some e => (pre ++ g.1, some e)
      | none =>
          let tail := hostLoop rest
          (pre ++ g.1 ++ [SinkCall.set_variable hn "enabled" (Value.bool h.enabled)] ++ tail.1,
           tail.2)

/-- The body of `InventoryModule.parse` after validation, on the decoded
hosts: sort, run the group-collection loop (a `TypeError` there aborts
before any inventory mutation), create each group of `list(set(...))`
once, then run the host loop. -/
def parseBody (hs : List RawHostRecord) : List SinkCall × Option String :=
  let sorted := sortHosts hs
  match collectGroups sorted with
  | .error e => ([], some e)
  | .ok gs =>
      let tail := hostLoop sorted
      (gs.dedup.map SinkCall.add_group ++ tail.1, tail.2)

/-- Modelled from the spec: the schema artifact
`plugin_utils/portal-cmdb-schema.json` is referenced by `parse` but is not
among the sources.  Per the spec the schema must "at minimum constrain
`hosts` to be a sequence of objects each requiring `primary_address`
(string) and `enabled` (boolean), with `group_list` being a sequence of
strings or null".  A failure carries a diagnostic message in the style of
the jsonschema validator. -/
def validateHost (j : Json) : Except String Unit :=
  match j with
  | .obj fields =>
      match fields.lookup "primary_address" with
      | some (.str _) =>
          match fields.lookup "enabled" with
          | some (.bool _) =>
              match fields.lookup "group_list" with
              | some (.arr es) =>
                  if es.all (fun e => match e with | .null => true | .str _ => true | _ => false) then .ok ()
                  else .error "items of group_list are not of type string or null"
              | some _ => .error "group_list is not of type array"
              | none => .error "group_list is a required property"
          | some _ => .error "enabled is not of type boolean"
          | none => .error "enabled is a required property"
      | some _ => .error "primary_address is not of type string"
      | none => .error "primary_address is a required property"
  | _ => .error "host entry is not of type object"

/-- Modelled from the spec: schema validation of every entry of the
`hosts` array, reporting the first diagnostic. -/
def validateHosts : List Json → Except String Unit
  | [] => .ok ()
  | h :: rest =>
      match validateHost h with
      | .error e => .error e
      | .ok _ => validateHosts rest

/-- Modelled from the spec: `jsonschema.validate(instance=raw_data,
schema=schema)` for the fixed (missing) schema artifact — the payload must
be an object with a `hosts` array of valid host entries. -/
def validate (j : Json) : Except String Unit :=
  match j with
  | .obj fields =>
      match fields.lookup "hosts" with
      | some (.arr hostsArr) => validateHosts hostsArr
      | some _ => .error "hosts is not of type array"
      | none => .error "hosts is a required property"
  | _ => .error "payload is not of type object"

/-- One `group_list` entry as accessed by `parse`: a JSON string or null. -/
def decodeGroupElem : Json → Option (Option String)
  | .null => some none
  | .str s => some (some s)
  | _ => none

/-- The fields of one host as accessed by `parse`
(`host['primary_address']`, `host['group_list']`, `host['enabled']`). -/
def decodeHost (j : Json) : Option RawHostRecord :=
  match j with
  | .obj fields =>
      match fields.lookup "primary_address", fields.lookup "group_list", fields.lookup "enabled" with
      | some (.str pa), some (.arr gl), some (.bool en) =>
          match gl.mapM decodeGroupElem with
          | some glDecoded => some { primary_address := pa, group_list := glDecoded, enabled := en }
          | none => none
      | _, _, _ => none
  | _ => none

/-- The `raw_data['hosts']` access plus the per-host field accesses of
`parse`, as one decoding step (validation has already guaranteed the
fields exist and have the right types). -/
def decodePayload (j : Json) : Option (List RawHostRecord) :=
  match j with
  | .obj fields =>
      match fields.lookup "hosts" with
      | some (.arr hostsArr) => hostsArr.mapM decodeHost
      | _ => none
  | _ => none

/-- The `parse` pipeline end to end: fetch (`_load_inventory_data`),
validate (wrapping the diagnostic exactly as the source's
`raise AnsibleError(f"Unable to validate data, ...")` does), decode the
fields, and run the transform/register body.  The result is the list of
inventory calls made and the error that aborted the run, if any.  The
`"KeyError"` branch is Python's behavior when a field access fails; it is
unreachable for validated payloads. -/
def pipelineRun (cmdb_api_url : String) (resp : HttpResult) : List SinkCall × Option String :=
  match load_inventory_data cmdb_api_url resp with
  | .error e => ([], some e)
  | .ok raw_data =>
      match validate raw_data with
      | .error diag => ([], some ("Unable to validate data, the original error is: " ++ diag))
      | .ok _ =>
          match decodePayload raw_data with
          | none => ([], some "KeyError")
          | some hosts => parseBody hosts

/-- The hostname used for a host's registration calls:
`hostname = host[self.PRIMARY_KEY]` with `PRIMARY_KEY = 'primary_address'`. -/
def hostnameOf (h : RawHostRecord) : String := h.primary_address

/-- The sanitized group names one host contributes when no `TypeError`
occurs: none for the `[None]` placeholder, otherwise its sanitized
`group_list` entries in order (`v.getD ""` stands for the entry's string;
it is only consulted for hosts with no `None` entry). -/
def hostGroupNames (h : RawHostRecord) : List String :=
  if h.group_list = [(none : Option String)] then []
  else h.group_list.map (fun v => sanitize_group_name (v.getD ""))

/-- Description of the calls the host loop makes for one host when no
`TypeError` occurs (used to state the contract; `hostLoop_eq_flatMap`
proves the operational loop emits exactly these). -/
def hostRegCalls (h : RawHostRecord) : List SinkCall :=
  [SinkCall.add_host h.primary_address "all",
   SinkCall.set_variable h.primary_address "ansible_host" (Value.str h.primary_address)] ++
  (hostGroupNames h).map (SinkCall.add_host h.primary_address) ++
  [SinkCall.set_variable h.primary_address "enabled" (Value.bool h.enabled)]

/-- The sanitized group names contributed to `host_groups` by the
collection loop, in iteration order (before `list(set(...))`). -/
def groupsOf (hs : List RawHostRecord) : List String :=
  (sortHosts hs).flatMap hostGroupNames

/-- The deduplicated set of group names that get pre-created. -/
def groupSet (hs : List RawHostRecord) : List String := (groupsOf hs).dedup

/-- No host makes `_sanitize_group_name` raise: every host whose
`group_list` is not exactly `[None]` has no `None` entry. -/
def sanitizeOk (hs : List RawHostRecord) : Prop :=
  ∀ h ∈ hs, h.group_list ≠ [(none : Option String)] → (none : Option String) ∉ h.group_list

/-- Is a call a group creation (`inventory.add_group`)? -/
def isAddGroupCall : SinkCall → Bool
  | .add_group _ => true
  | _ => false

/-- The state of one host variable after a trace of inventory calls:
each matching `set_variable` overwrites, so the last write wins. -/
def finalVarsFrom (acc : Option Value) (trace : List SinkCall) (hn key : String) : Option Value :=
  trace.foldl (fun a c =>
    match c with
    | .set_variable h k v => if h == hn && k == key then some v else a
    | _ => a) acc

/-- The final value of a host variable after a trace of inventory calls. -/
def finalVars (trace : List SinkCall) (hn key : String) : Option Value :=
  finalVarsFrom none trace hn key

end Portal

namespace Portal

theorem char_le_iff (a b : Char) : a ≤ b ↔ a.toNat ≤ b.toNat := Iff.rfl

theorem toNat_ofNat_valid (n : Nat) (h : n.isValidChar) : (Char.ofNat n).toNat = n := by
  simp only [Char.ofNat, h, dite_true, Char.ofNatAux, Char.toNat, UInt32.toNat]
  simp [BitVec.toNat_ofNatLt]

theorem toLower_of_not_upper (c : Char) (h : ¬ (65 ≤ c.toNat ∧ c.toNat ≤ 90)) :
    c.toLower = c := by
  rw [Char.toLower]
  simp only [ge_iff_le]
  rw [if_neg h]

/-- Every character produced by `sanitizeChar` is in `[a-z0-9_]`. -/
theorem good_sanitizeChar (c : Char) : isGoodChar (sanitizeChar c) = true := by
  by_cases hall : isAllowedChar c = true
  · rw [sanitizeChar]
    simp only [hall, if_true]
    simp only [isAllowedChar, Bool.or_eq_true, Bool.and_eq_true, decide_eq_true_eq, beq_iff_eq] at hall
    rcases hall with ((((⟨h1, h2⟩ | ⟨h1, h2⟩) | ⟨h1, h2⟩) | h) | h)
    · rw [char_le_iff] at h1 h2
      have hA : Char.toNat 'A' = 65 := by decide
      have hZ : Char.toNat 'Z' = 90 := by decide
      rw [hA] at h1; rw [hZ] at h2
      have hval : (c.toNat + 32).isValidChar := Or.inl (by omega)
      have hlow : c.toLower = Char.ofNat (c.toNat + 32) := by
        rw [Char.toLower]; rw [if_pos ⟨h1, h2⟩]
      rw [hlow]
      have ht : (Char.ofNat (c.toNat + 32)).toNat = c.toNat + 32 := toNat_ofNat_valid _ hval
      have hne : Char.ofNat (c.toNat + 32) ≠ '-' := by
        intro he
        rw [he] at ht
        have : Char.toNat '-' = 45 := by decide
        omega
      rw [if_neg hne]
      simp only [isGoodChar, Bool.or_eq_true, Bool.and_eq_true, decide_eq_true_eq, beq_iff_eq]
      left; left
      refine ⟨?_, ?_⟩
      · rw [char_le_iff, ht]; change 97 ≤ _; omega
      · rw [char_le_iff, ht]; change _ ≤ 122; omega
    · rw [char_le_iff] at h1 h2
      have ha : Char.toNat 'a' = 97 := by decide
      have hz : Char.toNat 'z' = 122 := by decide
      rw [ha] at h1; rw [hz] at h2
      rw [toLower_of_not_upper c (by omega)]
      have hne : c ≠ '-' := by
        intro he; rw [he] at h1; revert h1; decide
      rw [if_neg hne]
      simp only [isGoodChar, Bool.or_eq_true, Bool.and_eq_true, decide_eq_true_eq, beq_iff_eq]
      left; left
      exact ⟨by rw [char_le_iff, ha]; omega, by rw [char_le_iff, hz]; omega⟩
    · rw [char_le_iff] at h1 h2
      have h0 : Char.toNat '0' = 48 := by decide
      have h9 : Char.toNat '9' = 57 := by decide
      rw [h0] at h1; rw [h9] at h2
      rw [toLower_of_not_upper c (by omega)]
      have hne : c ≠ '-' := by
        intro he; rw [he] at h1; revert h1; decide
      rw [if_neg hne]
      simp only [isGoodChar, Bool.or_eq_true, Bool.and_eq_true, decide_eq_true_eq, beq_iff_eq]
      left; right
      exact ⟨by rw [char_le_iff, h0]; omega, by rw [char_le_iff, h9]; omega⟩
    · subst h; decide
    · subst h; decide
  · rw [sanitizeChar]
    rw [if_neg hall]
    decide

/-- `sanitizeChar` fixes every character already in `[a-z0-9_]`. -/
theorem sanitizeChar_of_good (c : Char) (h : isGoodChar c = true) : sanitizeChar c = c := by
  simp only [isGoodChar, Bool.or_eq_true, Bool.and_eq_true, decide_eq_true_eq, beq_iff_eq] at h
  have hall : isAllowedChar c = true := by
    simp only [isAllowedChar, Bool.or_eq_true, Bool.and_eq_true, decide_eq_true_eq, beq_iff_eq]
    rcases h with (⟨h1, h2⟩ | ⟨h1, h2⟩) | h
    · left; left; left; right; exact ⟨h1, h2⟩
    · left; left; right; exact ⟨h1, h2⟩
    · left; right; exact h
  rw [sanitizeChar]
  simp only [hall, if_true]
  rcases h with (⟨h1, h2⟩ | ⟨h1, h2⟩) | h
  · rw [char_le_iff] at h1 h2
    have ha : Char.toNat 'a' = 97 := by decide
    have hz : Char.toNat 'z' = 122 := by decide
    rw [ha] at h1; rw [hz] at h2
    rw [toLower_of_not_upper c (by omega)]
    have hne : c ≠ '-' := by
      intro he; rw [he] at h1; revert h1; decide
    rw [if_neg hne]
  · rw [char_le_iff] at h1 h2
    have h0 : Char.toNat '0' = 48 := by decide
    have h9 : Char.toNat '9' = 57 := by decide
    rw [h0] at h1; rw [h9] at h2
    rw [toLower_of_not_upper c (by omega)]
    have hne : c ≠ '-' := by
      intro he; rw [he] at h1; revert h1; decide
    rw [if_neg hne]
  · subst h; decide

theorem sanitizeChar_idem (c : Char) : sanitizeChar (sanitizeChar c) = sanitizeChar c :=
  sanitizeChar_of_good _ (good_sanitizeChar c)

/-- C9: for every string, `_sanitize_group_name` — replace every character
outside `[A-Za-z0-9_-]` with `_`, lower-case, then replace `-` with `_` —
yields a string whose characters all lie in `[a-z0-9_]`. -/
theorem sanitize_group_name_only_good_chars (s : String) :
    (sanitize_group_name s).data.all isGoodChar = true := by
  rw [sanitize_group_name]
  simp only [List.all_map, List.all_eq_true]
  intro c _
  exact good_sanitizeChar c

/-- C8: group-name sanitization is idempotent:
`sanitize(sanitize(x)) = sanitize(x)` for every string `x`. -/
theorem sanitize_group_name_idem (s : String) :
    sanitize_group_name (sanitize_group_name s) = sanitize_group_name s := by
  have key : ∀ l : List Char, (l.map sanitizeChar).map sanitizeChar = l.map sanitizeChar := by
    intro l
    induction l with
    | nil => rfl
    | cons c cs ih => rw [List.map_cons, List.map_cons, sanitizeChar_idem c, ih]
  unfold sanitize_group_name
  congr 1
  exact key s.data

end Portal

namespace Portal

theorem insertHost_perm (x : RawHostRecord) (l : List RawHostRecord) :
    (insertHost x l).Perm (x :: l) := by
  induction l with
  | nil => rfl
  | cons y ys ih =>
      rw [insertHost]
      by_cases h : x.primary_address ≤ y.primary_address
      · rw [if_pos h]
      · rw [if_neg h]
        exact List.Perm.trans (List.Perm.cons y ih) (List.Perm.swap x y ys)

theorem sortHosts_perm (l : List RawHostRecord) : (sortHosts l).Perm l := by
  induction l with
  | nil => rfl
  | cons x xs ih =>
      rw [sortHosts]
      exact List.Perm.trans (insertHost_perm x (sortHosts xs)) (List.Perm.cons x ih)

theorem mem_insertHost {z x : RawHostRecord} {l : List RawHostRecord} :
    z ∈ insertHost x l ↔ z = x ∨ z ∈ l := by
  rw [List.Perm.mem_iff (insertHost_perm x l), List.mem_cons]

theorem pairwise_insertHost (x : RawHostRecord) (l : List RawHostRecord)
    (hl : l.Pairwise (fun a b => a.primary_address ≤ b.primary_address)) :
    (insertHost x l).Pairwise (fun a b => a.primary_address ≤ b.primary_address) := by
  induction l with
  | nil => simp [insertHost]
  | cons y ys ih =>
      rw [insertHost]
      rw [List.pairwise_cons] at hl
      by_cases h : x.primary_address ≤ y.primary_address
      · rw [if_pos h]
        refine List.Pairwise.cons ?_ (List.Pairwise.cons hl.1 hl.2)
        intro z hz
        rcases List.mem_cons.mp hz with rfl | hz
        · exact h
        · exact le_trans h (hl.1 z hz)
      · rw [if_neg h]
        refine List.Pairwise.cons ?_ (ih hl.2)
        intro z hz
        rcases mem_insertHost.mp hz with rfl | hz
        · exact le_of_not_le h
        · exact hl.1 z hz

theorem sortHosts_pairwise (l : List RawHostRecord) :
    (sortHosts l).Pairwise (fun a b => a.primary_address ≤ b.primary_address) := by
  induction l with
  | nil => exact List.Pairwise.nil
  | cons x xs ih => exact pairwise_insertHost x (sortHosts xs) ih

theorem insertHost_filter_key (x : RawHostRecord) (l : List RawHostRecord) (k : String) :
    (insertHost x l).filter (fun h => h.primary_address == k) =
      (x :: l).filter (fun h => h.primary_address == k) := by
  induction l with
  | nil => rfl
  | cons y ys ih =>
      rw [insertHost]
      by_cases h : x.primary_address ≤ y.primary_address
      · rw [if_pos h]
      · rw [if_neg h]
        have hxy : x.primary_address ≠ y.primary_address := by
          intro he
          exact h (le_of_eq he)
        simp only [List.filter_cons, ih]
        by_cases hx : (x.primary_address == k) = true
        · have hpy : (y.primary_address == k) = false := by
            simp only [beq_eq_false_iff_ne, ne_eq]
            intro he
            exact hxy ((eq_of_beq hx).trans he.symm)
          simp [hx, hpy]
        · have hx' : (x.primary_address == k) = false := by
            simpa using hx
          simp [hx']

theorem sortHosts_filter_key (l : List RawHostRecord) (k : String) :
    (sortHosts l).filter (fun h => h.primary_address == k) =
      l.filter (fun h => h.primary_address == k) := by
  induction l with
  | nil => rfl
  | cons x xs ih =>
      rw [sortHosts, insertHost_filter_key]
      rw [List.filter_cons, List.filter_cons, ih]

/-- C1: for every schema-valid payload (a list of decoded host records),
the transformed registration sequence is the source hosts rearranged
(`Perm`), in non-decreasing order of `primary_address` under string
comparison, stably (the records with any given key appear in their
original relative order), and each record's registration hostname is its
source host's `primary_address` value. -/
theorem transform_sorted_stable_hostnames (hs : List RawHostRecord) :
    (sortHosts hs).Perm hs ∧
    (sortHosts hs).Pairwise (fun a b => a.primary_address ≤ b.primary_address) ∧
    (∀ k : String, (sortHosts hs).filter (fun h => h.primary_address == k) =
      hs.filter (fun h => h.primary_address == k)) ∧
    (∀ h : RawHostRecord, hostnameOf h = h.primary_address) :=
  ⟨sortHosts_perm hs, sortHosts_pairwise hs,
   fun k => sortHosts_filter_key hs k, fun _ => rfl⟩

end Portal

namespace Portal

theorem gatherGroups_of_no_none (gl : List (Option String))
    (h : (none : Option String) ∉ gl) :
    gatherGroups gl = .ok (gl.map (fun v => sanitize_group_name (v.getD ""))) := by
  induction gl with
  | nil => rfl
  | cons v vs ih =>
      rw [List.mem_cons, not_or] at h
      match v, h.1 with
      | some s, _ =>
          rw [gatherGroups, sanitizeOpt, ih h.2]
          rfl
  
theorem gatherGroups_of_none (gl : List (Option String))
    (h : (none : Option String) ∈ gl) :
    gatherGroups gl = .error typeErrorMsg := by
  induction gl with
  | nil => cases h
  | cons v vs ih =>
      rcases List.mem_cons.mp h with rfl | hmem
      · rfl
      · match v with
        | none => rfl
        | some s =>
            rw [gatherGroups, sanitizeOpt, ih hmem]

theorem gatherGroups_error_msg (gl : List (Option String)) (e : String)
    (h : gatherGroups gl = .error e) : e = typeErrorMsg := by
  induction gl with
  | nil => cases h
  | cons v vs ih =>
      match v with
      | none =>
          rw [gatherGroups, sanitizeOpt] at h
          cases h
          rfl
      | some s =>
          rw [gatherGroups, sanitizeOpt] at h
          match hg : gatherGroups vs with
          | .error e' =>
              rw [hg] at h
              cases h
              exact ih hg
          | .ok rest =>
              rw [hg] at h
              cases h

theorem groupAddCalls_of_no_none (hn : String) (gl : List (Option String))
    (h : (none : Option String) ∉ gl) :
    groupAddCalls hn gl =
      (gl.map (fun v => SinkCall.add_host hn (sanitize_group_name (v.getD ""))), none) := by
  induction gl with
  | nil => rfl
  | cons v vs ih =>
      rw [List.mem_cons, not_or] at h
      match v, h.1 with
      | some s, _ =>
          rw [groupAddCalls, sanitizeOpt, ih h.2]
          rfl

theorem groupAddCalls_err_of_none (hn : String) (gl : List (Option String))
    (h : (none : Option String) ∈ gl) :
    (groupAddCalls hn gl).2 = some typeErrorMsg := by
  induction gl with
  | nil => cases h
  | cons v vs ih =>
      rcases List.mem_cons.mp h with rfl | hmem
      · rfl
      · match v with
        | none => rfl
        | some s =>
            rw [groupAddCalls, sanitizeOpt]
            exact ih hmem

end Portal

namespace Portal

theorem collectGroups_of_ok (l : List RawHostRecord)
    (hok : ∀ h ∈ l, h.group_list ≠ [(none : Option String)] → (none : Option String) ∉ h.group_list) :
    collectGroups l = .ok (l.flatMap hostGroupNames) := by
  induction l with
  | nil => rfl
  | cons h rest ih =>
      rw [collectGroups]
      by_cases hgl : h.group_list = [(none : Option String)]
      · rw [if_pos hgl]
        rw [ih (fun x hx => hok x (List.mem_cons_of_mem h hx))]
        rw [List.flatMap_cons, hostGroupNames, if_pos hgl]
      · rw [if_neg hgl]
        rw [gatherGroups_of_no_none _ (hok h (List.mem_cons_self h rest) hgl)]
        rw [ih (fun x hx => hok x (List.mem_cons_of_mem h hx))]
        rw [List.flatMap_cons, hostGroupNames, if_neg hgl]

theorem collectGroups_err_of_violation (l : List RawHostRecord) (h : RawHostRecord)
    (hmem : h ∈ l) (hgl : h.group_list ≠ [(none : Option String)])
    (hnone : (none : Option String) ∈ h.group_list) :
    collectGroups l = .error typeErrorMsg := by
  induction l with
  | nil => cases hmem
  | cons x rest ih =>
      rw [collectGroups]
      rcases List.mem_cons.mp hmem with rfl | hmem'
      · rw [if_neg hgl, gatherGroups_of_none _ hnone]
      · by_cases hxgl : x.group_list = [(none : Option String)]
        · rw [if_pos hxgl, ih hmem']
        · rw [if_neg hxgl]
          cases hg : gatherGroups x.group_list with
          | error e =>
              rw [gatherGroups_error_msg _ _ hg]
          | ok gs =>
              rw [ih hmem']

theorem hostLoop_eq_flatMap (l : List RawHostRecord)
    (hok : ∀ h ∈ l, h.group_list ≠ [(none : Option String)] → (none : Option String) ∉ h.group_list) :
    hostLoop l = (l.flatMap hostRegCalls, none) := by
  induction l with
  | nil => rfl
  | cons h rest ih =>
      rw [hostLoop]
      by_cases hgl : h.group_list = [(none : Option String)]
      · rw [if_pos hgl]
        rw [ih (fun x hx => hok x (List.mem_cons_of_mem h hx))]
        rw [List.flatMap_cons, hostRegCalls, hostGroupNames, if_pos hgl]
        simp
      · rw [if_neg hgl]
        rw [groupAddCalls_of_no_none _ _ (hok h (List.mem_cons_self h rest) hgl)]
        rw [ih (fun x hx => hok x (List.mem_cons_of_mem h hx))]
        rw [List.flatMap_cons, hostRegCalls, hostGroupNames, if_neg hgl]
        simp

theorem sanitizeOk_sortHosts (hs : List RawHostRecord) (hok : sanitizeOk hs) :
    ∀ h ∈ sortHosts hs, h.group_list ≠ [(none : Option String)] → (none : Option String) ∉ h.group_list :=
  fun h hmem => hok h ((sortHosts_perm hs).mem_iff.mp hmem)

theorem parseBody_of_ok (hs : List RawHostRecord) (hok : sanitizeOk hs) :
    parseBody hs =
      ((groupSet hs).map SinkCall.add_group ++ (sortHosts hs).flatMap hostRegCalls, none) := by
  rw [parseBody]
  rw [collectGroups_of_ok _ (sanitizeOk_sortHosts hs hok)]
  rw [hostLoop_eq_flatMap _ (sanitizeOk_sortHosts hs hok)]
  rfl

theorem parseBody_err_of_violation (hs : List RawHostRecord) (h : RawHostRecord)
    (hmem : h ∈ hs) (hgl : h.group_list ≠ [(none : Option String)])
    (hnone : (none : Option String) ∈ h.group_list) :
    parseBody hs = ([], some typeErrorMsg) := by
  rw [parseBody]
  rw [collectGroups_err_of_violation (sortHosts hs) h ((sortHosts_perm hs).mem_iff.mpr hmem) hgl hnone]

end Portal

namespace Portal

theorem hostRegCalls_no_add_group (h : RawHostRecord) :
    ∀ c ∈ hostRegCalls h, isAddGroupCall c = false := by
  intro c hc
  rw [hostRegCalls] at hc
  rcases List.mem_append.mp hc with hc' | hc'
  · rcases List.mem_append.mp hc' with hc'' | hc''
    · rcases List.mem_cons.mp hc'' with rfl | hc3
      · rfl
      · rcases List.mem_cons.mp hc3 with rfl | hc4
        · rfl
        · cases hc4
    · rcases List.mem_map.mp hc'' with ⟨g, _, rfl⟩
      rfl
  · rcases List.mem_cons.mp hc' with rfl | hc''
    · rfl
    · cases hc''

/-- C2: for every valid payload on which sanitization raises no
`TypeError`, the emitted call sequence is exactly: one `add_group` per
name of the deduplicated sanitized group-name set (each created once,
since the set is duplicate-free and its members are exactly the collected
names), followed by the per-host registration calls for each host in
sorted order (`add_host` to `all`, `set_variable ansible_host`, one
`add_host` per sanitized group, `set_variable enabled`); no
host-registration call precedes a group-creation call, and the host phase
contains no group creation. -/
theorem parse_groups_before_hosts (hs : List RawHostRecord) (hok : sanitizeOk hs) :
    (parseBody hs).1 =
      (groupSet hs).map SinkCall.add_group ++ (sortHosts hs).flatMap hostRegCalls ∧
    (parseBody hs).2 = none ∧
    (groupSet hs).Nodup ∧
    (∀ g : String, g ∈ groupSet hs ↔ g ∈ groupsOf hs) ∧
    (∀ c ∈ (sortHosts hs).flatMap hostRegCalls, isAddGroupCall c = false) := by
  refine ⟨?_, ?_, ?_, ?_, ?_⟩
  · rw [parseBody_of_ok hs hok]
  · rw [parseBody_of_ok hs hok]
  · exact List.nodup_dedup _
  · intro g
    exact List.mem_dedup
  · intro c hc
    rcases List.mem_flatMap.mp hc with ⟨h, _, hch⟩
    exact hostRegCalls_no_add_group h c hch

/-- C6: a host whose `group_list` is exactly the placeholder `[None]`
contributes no names to the pre-created group set (its contribution to the
collection loop is empty) and its registration calls add it to no group
besides the implicit `all`. -/
theorem null_placeholder_yields_no_groups (h : RawHostRecord) (hs : List RawHostRecord)
    (hgl : h.group_list = [(none : Option String)]) :
    hostGroupNames h = [] ∧
    collectGroups (h :: hs) = collectGroups hs ∧
    hostLoop (h :: hs) =
      ([SinkCall.add_host h.primary_address "all",
        SinkCall.set_variable h.primary_address "ansible_host" (Value.str h.primary_address),
        SinkCall.set_variable h.primary_address "enabled" (Value.bool h.enabled)] ++ (hostLoop hs).1,
       (hostLoop hs).2) := by
  refine ⟨?_, ?_, ?_⟩
  · rw [hostGroupNames, if_pos hgl]
  · rw [collectGroups, if_pos hgl]
    cases hc : collectGroups hs with
    | error e => rfl
    | ok others => rfl
  · rw [hostLoop, if_pos hgl]
    simp

end Portal

namespace Portal

theorem finalVarsFrom_append (acc : Option Value) (t1 t2 : List SinkCall) (hn key : String) :
    finalVarsFrom acc (t1 ++ t2) hn key = finalVarsFrom (finalVarsFrom acc t1 hn key) t2 hn key := by
  rw [finalVarsFrom, finalVarsFrom, finalVarsFrom, List.foldl_append]

theorem finalVarsFrom_map_add_host (acc : Option Value) (names : List String)
    (hn' k key : String) :
    finalVarsFrom acc (names.map (SinkCall.add_host hn')) k key = acc := by
  induction names generalizing acc with
  | nil => rfl
  | cons g gs ih => exact ih acc

theorem finalVarsFrom_hostRegCalls (acc : Option Value) (h : RawHostRecord) (k : String) :
    finalVarsFrom acc (hostRegCalls h) k "enabled" =
      if h.primary_address == k then some (Value.bool h.enabled) else acc := by
  rw [hostRegCalls, finalVarsFrom_append, finalVarsFrom_append]
  rw [finalVarsFrom_map_add_host]
  have h1 : finalVarsFrom acc
      [SinkCall.add_host h.primary_address "all",
       SinkCall.set_variable h.primary_address "ansible_host" (Value.str h.primary_address)] k "enabled" = acc := by
    rw [finalVarsFrom]
    simp only [List.foldl_cons, List.foldl_nil]
    have : (("ansible_host" : String) == "enabled") = false := by decide
    rw [this, Bool.and_false]
    rfl
  rw [h1, finalVarsFrom]
  simp only [List.foldl_cons, List.foldl_nil]
  have : (("enabled" : String) == "enabled") = true := by decide
  rw [this, Bool.and_true]

theorem finalVarsFrom_flatMap_hostRegCalls (l : List RawHostRecord) (acc : Option Value) (k : String) :
    finalVarsFrom acc (l.flatMap hostRegCalls) k "enabled" =
      (match (l.filter (fun h => h.primary_address == k)).getLast? with
       | some h => some (Value.bool h.enabled)
       | none => acc) := by
  induction l generalizing acc with
  | nil => rfl
  | cons h rest ih =>
      rw [List.flatMap_cons, finalVarsFrom_append, finalVarsFrom_hostRegCalls, ih]
      rw [List.filter_cons]
      by_cases hk : (h.primary_address == k) = true
      · rw [if_pos hk, if_pos hk, List.getLast?_cons]
        cases hl : (rest.filter (fun h => h.primary_address == k)).getLast? with
        | some h' => rfl
        | none => rfl
      · have hk' : (h.primary_address == k) = false := by simpa using hk
        have hkne : ¬ (h.primary_address == k) = true := by
          rw [hk']
          exact Bool.false_ne_true
        rw [if_neg hkne, if_neg hkne]

end Portal

namespace Portal

theorem finalVarsFrom_map_add_group (acc : Option Value) (names : List String) (k key : String) :
    finalVarsFrom acc (names.map SinkCall.add_group) k key = acc := by
  induction names generalizing acc with
  | nil => rfl
  | cons g gs ih => exact ih acc

/-- C10: a schema-valid payload in which several hosts share one
`primary_address` is processed without failure (no uniqueness check
exists): the shared hostname is registered, and its final `enabled`
variable is the `enabled` value of the duplicate that comes last in
sorted order (each host's `set_variable` overwrites the previous one, so
the last write wins). -/
theorem duplicate_primary_addresses_last_write_wins (hs : List RawHostRecord)
    (hok : sanitizeOk hs) (k : String)
    (hk : k ∈ hs.map (fun h => h.primary_address)) :
    (parseBody hs).2 = none ∧
    SinkCall.add_host k "all" ∈ (parseBody hs).1 ∧
    finalVars (parseBody hs).1 k "enabled" =
      (((sortHosts hs).filter (fun h => h.primary_address == k)).getLast?).map
        (fun h => Value.bool h.enabled) := by
  rcases List.mem_map.mp hk with ⟨h, hmem, hpa⟩
  refine ⟨?_, ?_, ?_⟩
  · rw [parseBody_of_ok hs hok]
  · rw [parseBody_of_ok hs hok]
    refine List.mem_append.mpr (Or.inr ?_)
    refine List.mem_flatMap.mpr ⟨h, (sortHosts_perm hs).mem_iff.mpr hmem, ?_⟩
    rw [hostRegCalls, hpa]
    exact List.mem_append.mpr (Or.inl (List.mem_append.mpr (Or.inl (List.mem_cons_self _ _))))
  · rw [parseBody_of_ok hs hok]
    rw [finalVars, finalVarsFrom_append, finalVarsFrom_map_add_group]
    rw [finalVarsFrom_flatMap_hostRegCalls]
    cases hl : ((sortHosts hs).filter (fun h => h.primary_address == k)).getLast? with
    | some h' => rfl
    | none => rfl

end Portal

namespace Portal

/-- C7 (amended): for a host whose `group_list` is not exactly `[None]`,
no null-filtering is applied — every entry, `None` included, is passed to
`_sanitize_group_name`.  When the list has no `None` entry, each entry
yields one group membership for the host, in order.  When it does contain
`None` (for example `["ops", null]`), the sanitizer raises `TypeError`
during the group-collection loop, so the whole parse aborts with that
error and no call is emitted — the entry yields no group membership. -/
theorem mixed_null_group_list_behavior (h : RawHostRecord)
    (hne : h.group_list ≠ [(none : Option String)]) :
    ((none : Option String) ∉ h.group_list →
       gatherGroups h.group_list =
         .ok (h.group_list.map (fun v => sanitize_group_name (v.getD ""))) ∧
       groupAddCalls h.primary_address h.group_list =
         (h.group_list.map
            (fun v => SinkCall.add_host h.primary_address (sanitize_group_name (v.getD ""))),
          none)) ∧
    ((none : Option String) ∈ h.group_list →
       gatherGroups h.group_list = .error typeErrorMsg ∧
       ∀ hs : List RawHostRecord, h ∈ hs → parseBody hs = ([], some typeErrorMsg)) := by
  constructor
  · intro hno
    exact ⟨gatherGroups_of_no_none _ hno, groupAddCalls_of_no_none _ _ hno⟩
  · intro hyes
    exact ⟨gatherGroups_of_none _ hyes,
           fun hs hmem => parseBody_err_of_violation hs h hmem hne hyes⟩

/-- A schema-valid host whose `group_list` mixes a real name with null. -/
def hostMixed : RawHostRecord :=
  { primary_address := "node-a", group_list := [some "ops", none], enabled := true }

/-- C7 counterexample: on the payload `[hostMixed]` (with `group_list`
`["ops", null]`), the parse emits no inventory call at all and aborts
with Python's `TypeError` from `re.sub(None)`: the null entry does not
yield a group membership, contrary to the claim as stated. -/
theorem mixed_null_counterexample :
    parseBody [hostMixed] = ([], some typeErrorMsg) := by rfl

/-- C3: whenever schema validation fails with a diagnostic, `parse` raises
the wrapped validation error and performs no inventory mutation: the call
trace is empty. -/
theorem validation_failure_no_mutation (url : String) (j : Json) (d : String)
    (hv : validate j = .error d) :
    pipelineRun url (.response 200 (.ok j)) =
      ([], some ("Unable to validate data, the original error is: " ++ d)) := by
  have hstep : pipelineRun url (.response 200 (.ok j)) =
      (match validate j with
       | .error diag => ([], some ("Unable to validate data, the original error is: " ++ diag))
       | .ok _ =>
          match decodePayload j with
          | none => ([], some "KeyError")
          | some hosts => parseBody hosts) := rfl
  rw [hstep, hv]

/-- A payload whose single host lacks `primary_address`. -/
def payloadMissingPrimary : Json :=
  .obj [("hosts", .arr [.obj [("group_list", .arr []), ("enabled", .bool true)]])]

/-- C4: for every non-200 response the pipeline fails with the fetch error
whose message names the requested URL, and emits no inventory call; a
transport exception or a JSON parse failure fails with the wrapped cause
message, again with no inventory call. -/
theorem fetch_failure_no_mutation (url : String) (status : Nat) (body : Except String Json)
    (m : String) (hstatus : status ≠ 200) :
    (pipelineRun url (.response status body) =
       ([], some ("An error occurred, the original exception is: " ++
         ("Failed to fetch JSON inventory data from CMDB: " ++ url ++ ".")))) ∧
    (∃ pre post : String,
       "An error occurred, the original exception is: " ++
         ("Failed to fetch JSON inventory data from CMDB: " ++ url ++ ".") =
         pre ++ url ++ post) ∧
    (pipelineRun url (.exn m) =
       ([], some ("An error occurred, the original exception is: " ++ m))) ∧
    (pipelineRun url (.response 200 (.error m)) =
       ([], some ("An error occurred, the original exception is: " ++ m))) := by
  refine ⟨?_, ?_, ?_, ?_⟩
  · have hl : load_inventory_data url (.response status body) =
        .error ("An error occurred, the original exception is: " ++
          ("Failed to fetch JSON inventory data from CMDB: " ++ url ++ ".")) := by
      have hl0 : load_inventory_data url (.response status body) =
          (if status = 200 then
             match body with
             | .ok data => (.ok data : Except String Json)
             | .error msg => .error ("An error occurred, the original exception is: " ++ msg)
           else
             .error ("An error occurred, the original exception is: " ++
               ("Failed to fetch JSON inventory data from CMDB: " ++ url ++ "."))) := rfl
      rw [hl0, if_neg hstatus]
    have hstep : pipelineRun url (.response status body) =
        (match load_inventory_data url (.response status body) with
         | .error e => (([], some e) : List SinkCall × Option String)
         | .ok raw_data =>
            match validate raw_data with
            | .error diag => ([], some ("Unable to validate data, the original error is: " ++ diag))
            | .ok _ =>
                match decodePayload raw_data with
                | none => ([], some "KeyError")
                | some hosts => parseBody hosts) := rfl
    rw [hstep, hl]
  · refine ⟨"An error occurred, the original exception is: " ++
      "Failed to fetch JSON inventory data from CMDB: ", ".", ?_⟩
    simp [← String.append_assoc]
  · rfl
  · rfl

end Portal

namespace Portal

/-- The host record decoded from
`{"primary_address":"node-02","group_list":["Compute!"],"enabled":true}`. -/
def hostNode02 : RawHostRecord :=
  { primary_address := "node-02", group_list := [some "Compute!"], enabled := true }

/-- The host record decoded from
`{"primary_address":"node-01","group_list":[null],"enabled":false}`. -/
def hostNode01 : RawHostRecord :=
  { primary_address := "node-01", group_list := [none], enabled := false }

/-- The scenario payload of the spec, with `node-02` listed first. -/
def scenarioJson : Json :=
  .obj [("hosts", .arr
    [.obj [("primary_address", .str "node-02"),
           ("group_list", .arr [.str "Compute!"]),
           ("enabled", .bool true)],
     .obj [("primary_address", .str "node-01"),
           ("group_list", .arr [.null]),
           ("enabled", .bool false)]])]

/-- C5: on the scenario payload the pipeline sorts the hosts to
`[node-01, node-02]`, pre-creates exactly the group set `{"compute_"}`,
adds `node-01` only to `all` with `enabled=false`, and adds `node-02` to
`all` and `compute_` with `enabled=true`. -/
theorem scenario_payload_run :
    decodePayload scenarioJson = some [hostNode02, hostNode01] ∧
    sortHosts [hostNode02, hostNode01] = [hostNode01, hostNode02] ∧
    groupSet [hostNode02, hostNode01] = ["compute_"] ∧
    pipelineRun "https://api.example.com/route/" (.response 200 (.ok scenarioJson)) =
      ([SinkCall.add_group "compute_",
        SinkCall.add_host "node-01" "all",
        SinkCall.set_variable "node-01" "ansible_host" (Value.str "node-01"),
        SinkCall.set_variable "node-01" "enabled" (Value.bool false),
        SinkCall.add_host "node-02" "all",
        SinkCall.set_variable "node-02" "ansible_host" (Value.str "node-02"),
        SinkCall.add_host "node-02" "compute_",
        SinkCall.set_variable "node-02" "enabled" (Value.bool true)], none) := by
  have hle : ¬ hostNode02.primary_address ≤ hostNode01.primary_address := by
    intro hcontra
    exact absurd (String.le_iff_toList_le.mp hcontra) (by decide)
  have hsort : sortHosts [hostNode02, hostNode01] = [hostNode01, hostNode02] := by
    show insertHost hostNode02 (insertHost hostNode01 []) = [hostNode01, hostNode02]
    show insertHost hostNode02 [hostNode01] = [hostNode01, hostNode02]
    rw [insertHost, if_neg hle]
    rfl
  refine ⟨rfl, hsort, ?_, ?_⟩
  · rw [groupSet, groupsOf, hsort]
    rfl
  · have hrun : pipelineRun "https://api.example.com/route/" (.response 200 (.ok scenarioJson)) =
        parseBody [hostNode02, hostNode01] := rfl
    have hpb : parseBody [hostNode02, hostNode01] =
        (match collectGroups (sortHosts [hostNode02, hostNode01]) with
         | .error e => (([], some e) : List SinkCall × Option String)
         | .ok gs =>
            (gs.dedup.map SinkCall.add_group ++ (hostLoop (sortHosts [hostNode02, hostNode01])).1,
             (hostLoop (sortHosts [hostNode02, hostNode01])).2)) := rfl
    rw [hrun, hpb, hsort]
    rfl

end Portal

namespace Portal

/-- Witness for C2 at the concrete two-host payload: the hypothesis (no
`TypeError` from sanitization) holds and the phase decomposition follows. -/
theorem parse_groups_before_hosts_witness :
    (parseBody [hostNode02, hostNode01]).1 =
      (groupSet [hostNode02, hostNode01]).map SinkCall.add_group ++
        (sortHosts [hostNode02, hostNode01]).flatMap hostRegCalls ∧
    (parseBody [hostNode02, hostNode01]).2 = none ∧
    (groupSet [hostNode02, hostNode01]).Nodup ∧
    (∀ g : String, g ∈ groupSet [hostNode02, hostNode01] ↔ g ∈ groupsOf [hostNode02, hostNode01]) ∧
    (∀ c ∈ (sortHosts [hostNode02, hostNode01]).flatMap hostRegCalls, isAddGroupCall c = false) :=
  parse_groups_before_hosts [hostNode02, hostNode01]
    (by
      have hd : ∀ h ∈ [hostNode02, hostNode01],
          h.group_list ≠ [(none : Option String)] → (none : Option String) ∉ h.group_list := by
        decide
      exact hd)

/-- Witness for C3 at a concrete payload whose host lacks
`primary_address`: validation fails and the pipeline mutates nothing. -/
theorem validation_failure_no_mutation_witness :
    pipelineRun "https://api.example.com/route/" (.response 200 (.ok payloadMissingPrimary)) =
      ([], some ("Unable to validate data, the original error is: " ++
        "primary_address is a required property")) :=
  validation_failure_no_mutation "https://api.example.com/route/" payloadMissingPrimary
    "primary_address is a required property" rfl

/-- Witness for C4 at status 404 and a concrete transport error. -/
theorem fetch_failure_no_mutation_witness :
    (pipelineRun "https://api.example.com/route/" (.response 404 (.error "ignored")) =
       ([], some ("An error occurred, the original exception is: " ++
         ("Failed to fetch JSON inventory data from CMDB: " ++ "https://api.example.com/route/" ++ ".")))) ∧
    (∃ pre post : String,
       "An error occurred, the original exception is: " ++
         ("Failed to fetch JSON inventory data from CMDB: " ++ "https://api.example.com/route/" ++ ".") =
         pre ++ "https://api.example.com/route/" ++ post) ∧
    (pipelineRun "https://api.example.com/route/" (.exn "Connection refused") =
       ([], some ("An error occurred, the original exception is: " ++ "Connection refused"))) ∧
    (pipelineRun "https://api.example.com/route/" (.response 200 (.error "Connection refused")) =
       ([], some ("An error occurred, the original exception is: " ++ "Connection refused"))) :=
  fetch_failure_no_mutation "https://api.example.com/route/" 404 (.error "ignored")
    "Connection refused" (by decide)

/-- Witness for C6 at the concrete `[None]`-placeholder host. -/
theorem null_placeholder_yields_no_groups_witness :
    hostGroupNames hostNode01 = [] ∧
    collectGroups (hostNode01 :: [hostNode02]) = collectGroups [hostNode02] ∧
    hostLoop (hostNode01 :: [hostNode02]) =
      ([SinkCall.add_host hostNode01.primary_address "all",
        SinkCall.set_variable hostNode01.primary_address "ansible_host"
          (Value.str hostNode01.primary_address),
        SinkCall.set_variable hostNode01.primary_address "enabled"
          (Value.bool hostNode01.enabled)] ++ (hostLoop [hostNode02]).1,
       (hostLoop [hostNode02]).2) :=
  null_placeholder_yields_no_groups hostNode01 [hostNode02] rfl

/-- Witness for C7 at the concrete mixed `["ops", null]` host. -/
theorem mixed_null_group_list_behavior_witness :
    ((none : Option String) ∉ hostMixed.group_list →
       gatherGroups hostMixed.group_list =
         .ok (hostMixed.group_list.map (fun v => sanitize_group_name (v.getD ""))) ∧
       groupAddCalls hostMixed.primary_address hostMixed.group_list =
         (hostMixed.group_list.map
            (fun v => SinkCall.add_host hostMixed.primary_address (sanitize_group_name (v.getD ""))),
          none)) ∧
    ((none : Option String) ∈ hostMixed.group_list →
       gatherGroups hostMixed.group_list = .error typeErrorMsg ∧
       ∀ hs : List RawHostRecord, hostMixed ∈ hs → parseBody hs = ([], some typeErrorMsg)) :=
  mixed_null_group_list_behavior hostMixed (by decide)

/-- A duplicate-key host pair: same `primary_address`, different
`enabled` values, the `enabled=false` one last in payload order. -/
def hostDupFirst : RawHostRecord :=
  { primary_address := "dup-host", group_list := [none], enabled := true }

/-- The second of the duplicate-key pair. -/
def hostDupSecond : RawHostRecord :=
  { primary_address := "dup-host", group_list := [none], enabled := false }

/-- Witness for C10 at the concrete duplicate pair: both hosts share
`dup-host`, the run does not fail, and the final `enabled` value is that
of the duplicate last in sorted order. -/
theorem duplicate_primary_addresses_witness :
    (parseBody [hostDupFirst, hostDupSecond]).2 = none ∧
    SinkCall.add_host "dup-host" "all" ∈ (parseBody [hostDupFirst, hostDupSecond]).1 ∧
    finalVars (parseBody [hostDupFirst, hostDupSecond]).1 "dup-host" "enabled" =
      (((sortHosts [hostDupFirst, hostDupSecond]).filter
          (fun h => h.primary_address == "dup-host")).getLast?).map
        (fun h => Value.bool h.enabled) :=
  duplicate_primary_addresses_last_write_wins [hostDupFirst, hostDupSecond]
    (by
      have hd : ∀ h ∈ [hostDupFirst, hostDupSecond],
          h.group_list ≠ [(none : Option String)] → (none : Option String) ∉ h.group_list := by
        decide
      exact hd)
    "dup-host" (by decide)

end Portal

namespace Portal

/-- A schema-valid host whose `group_list` is `[null, "web"]`. -/
def hostMixedB : RawHostRecord :=
  { primary_address := "node-b", group_list := [none, some "web"], enabled := false }

/-- C2 counterexample: the payload `[hostMixedB]` is schema-valid, yet the
emitted call sequence is empty — in particular the host is never added to
`all` — because `_sanitize_group_name(None)` raises `TypeError` during the
group-collection loop.  The claimed call sequence is therefore not emitted
for every valid payload. -/
theorem parse_phase_counterexample :
    parseBody [hostMixedB] = ([], some typeErrorMsg) ∧
    SinkCall.add_host "node-b" "all" ∉ (parseBody [hostMixedB]).1 := by
  have h : parseBody [hostMixedB] = ([], some typeErrorMsg) := rfl
  refine ⟨h, ?_⟩
  rw [h]
  exact List.not_mem_nil _

/-- First of a duplicate-key pair whose `group_list` mixes a name and null. -/
def hostDupMixedA : RawHostRecord :=
  { primary_address := "dup-node", group_list := [some "web", none], enabled := true }

/-- Second of the duplicate-key pair. -/
def hostDupMixedB : RawHostRecord :=
  { primary_address := "dup-node", group_list := [none], enabled := false }

/-- C10 counterexample: a schema-valid payload whose two hosts share one
`primary_address` on which the pipeline *does* fail (with the sanitizer's
`TypeError`), because the first duplicate's `group_list` mixes null with a
real name.  "The pipeline does not fail" therefore does not hold for every
schema-valid payload with duplicate keys. -/
theorem duplicate_keys_counterexample :
    hostDupMixedA.primary_address = hostDupMixedB.primary_address ∧
    parseBody [hostDupMixedA, hostDupMixedB] = ([], some typeErrorMsg) := by
  refine ⟨rfl, ?_⟩
  have hle : hostDupMixedA.primary_address ≤ hostDupMixedB.primary_address := le_of_eq rfl
  have hsort : sortHosts [hostDupMixedA, hostDupMixedB] = [hostDupMixedA, hostDupMixedB] := by
    show insertHost hostDupMixedA [hostDupMixedB] = [hostDupMixedA, hostDupMixedB]
    rw [insertHost, if_pos hle]
  have hpb : parseBody [hostDupMixedA, hostDupMixedB] =
      (match collectGroups (sortHosts [hostDupMixedA, hostDupMixedB]) with
       | .error e => (([], some e) : List SinkCall × Option String)
       | .ok gs =>
          (gs.dedup.map SinkCall.add_group ++
             (hostLoop (sortHosts [hostDupMixedA, hostDupMixedB])).1,
           (hostLoop (sortHosts [hostDupMixedA, hostDupMixedB])).2)) := rfl
  rw [hpb, hsort]
  rfl

end Portal
